import Mathlib

/-!
Verification of the `infimum` pallet's poll core (`pallet/src/poll/provider.rs`
and `pallet/src/lib.rs`) against its natural-language specification.

The Rust code is shallowly embedded below.  Machine integers (`u32`, `u64`,
`BlockNumber`) are modelled as `Nat`; every subtraction performed by the code
is guarded in the source so `Nat` truncated subtraction is exact, except the
`max_registrations - 1` in `registration_limit_reached`, which is modelled
with the release-mode `u32` wrap-around explicitly.

The Poseidon sponge (`crate::hash`), the `AmortizedIncrementalMerkleTree`
merge, the `EMPTY_BALLOT_ROOTS` constants and the `PollOutcome` record live in
modules of the repository that are outside the embedded sources; they are
modelled from the specification as abstract parameters (a deterministic
fixed-arity hash oracle over 32-byte big-endian encodings, a canonical-root
function for finalization, an opaque constant, and a record with the fields
the code reads).
-/

namespace Infimum

/-- A 32-byte big-endian value (one `Nat` per byte), the `HashBytes` of the
source.  Byte values are kept as unbounded `Nat`; every value the code
constructs is a genuine byte. -/
def HashBytes : Type := Fin 32 → Nat

instance : DecidableEq HashBytes := by
  unfold HashBytes
  infer_instance

/-- The all-zero 32-byte value `[0u8; 32]`. -/
def zeroHash : HashBytes := fun _ => 0

/-- Modelled from the spec: the Field Hash Adapter (`crate::hash`'s Poseidon,
absent from the embedded sources).  For each arity it is a deterministic
function of its inputs; byte inputs are read big-endian modulo the field
order and outputs are re-serialized as 32-byte big-endian values, so the
whole pipeline is folded into one function per arity over `HashBytes`.
Construction succeeds for the arities (2,3,4,5) the code requests. -/
structure PoseidonOracle where
  hash2 : HashBytes → HashBytes → HashBytes
  hash3 : HashBytes → HashBytes → HashBytes → HashBytes
  hash4 : HashBytes → HashBytes → HashBytes → HashBytes → HashBytes
  hash5 : (Fin 5 → HashBytes) → HashBytes

/-- State of one amortized incremental Merkle accumulator, as read by
`provider.rs`: branching factor `arity`, tree `depth`, number of inserted
leaves `count`, and the canonical `root` (absent while open). -/
structure MerkleAccumulator where
  arity : Nat
  depth : Nat
  count : Nat
  root : Option HashBytes

/-- The commitment ledger: per circuit a pair (proof batch index,
last-accepted commitment hash), plus the expected batch counts fixed at
merge time. -/
structure Commitment where
  process : Nat × HashBytes
  tally : Nat × HashBytes
  expected_process : Nat
  expected_tally : Nat

/-- Immutable poll configuration (the fields `provider.rs` reads). -/
structure PollConfig where
  signup_period : Nat
  voting_period : Nat
  vote_options : List Nat
  vote_option_tree_depth : Nat
  process_subtree_depth : Nat
  tally_subtree_depth : Nat
  max_registrations : Nat
  max_interactions : Nat

/-- Mutable poll state. -/
structure PollState where
  registrations : MerkleAccumulator
  interactions : MerkleAccumulator
  commitment : Commitment
  outcome : Option Nat
  tombstone : Bool

/-- A poll, as consumed by the `PollProvider` implementation. -/
structure Poll where
  created_at : Nat
  config : PollConfig
  state : PollState

/-- Opaque verifying-key blob; only identity matters to the claims. -/
def VKey : Type := Nat

/-- A coordinator record: public-key coordinates (as 32-byte values) and the
verifying keys for the process and tally circuits. -/
structure Coordinator where
  public_key_x : HashBytes
  public_key_y : HashBytes
  vk_process : VKey
  vk_tally : VKey

/-- One element of the public-input vector: either a small integer lifted
with `Fr::from`, or a 32-byte value decoded with `from_be_bytes_mod_order`
(hash outputs are re-serialized to bytes, so they also appear as `bytes`). -/
inductive PubIn where
  | nat (n : Nat)
  | bytes (b : HashBytes)
deriving DecidableEq

/-- `get_voting_period_end`. -/
def get_voting_period_end (poll : Poll) : Nat :=
  poll.created_at + poll.config.signup_period + poll.config.voting_period

/-- `message_batch_size` of `prepare_public_inputs` (and `process_batch_size`
of `merge_interactions`): `interactions.arity ^ process_subtree_depth`. -/
def messageBatchSize (poll : Poll) : Nat :=
  poll.state.interactions.arity ^ poll.config.process_subtree_depth

/-- The `current_batch_index` computed at the top of `prepare_public_inputs`:
the interaction count is rounded down to a multiple of the batch size, an
exact non-zero multiple being pulled back one whole batch. -/
def currentBatchIndex (poll : Poll) : Nat :=
  let c := poll.state.interactions.count
  if 0 < c then
    let r := c % messageBatchSize poll
    if r = 0 then c - messageBatchSize poll else c - r
  else c

/-- `tally_batch_size`: `registrations.arity ^ tally_subtree_depth`. -/
def tallyBatchSize (poll : Poll) : Nat :=
  poll.state.registrations.arity ^ poll.config.tally_subtree_depth

/-- The process-circuit arm of `prepare_public_inputs` (the `if` branch). -/
def processOutputs (H : PoseidonOracle) (poll : Poll) (coordinator : Coordinator)
    (new_commitment : HashBytes) : Option (VKey × List PubIn × Commitment) :=
  let proof_index := poll.state.commitment.process.1
  let index_offset := proof_index * messageBatchSize poll
  let coord_pub_key_hash := H.hash2 coordinator.public_key_x coordinator.public_key_y
  match poll.state.interactions.root with
  | none => none
  | some root_bytes =>
    let current_batch_index := currentBatchIndex poll - index_offset
    let end0 := current_batch_index + messageBatchSize poll
    let end_batch_index :=
      if poll.state.interactions.count < end0 then poll.state.interactions.count else end0
    some (coordinator.vk_process,
      [PubIn.nat (poll.state.registrations.count + 1),
       PubIn.nat (get_voting_period_end poll),
       PubIn.bytes root_bytes,
       PubIn.nat poll.state.registrations.depth,
       PubIn.nat end_batch_index,
       PubIn.nat current_batch_index,
       PubIn.bytes coord_pub_key_hash,
       PubIn.bytes poll.state.commitment.process.2,
       PubIn.bytes new_commitment],
      { poll.state.commitment with
          process := (proof_index + 1, new_commitment) })

/-- The tally-circuit arm of `prepare_public_inputs` (the `else` branch). -/
def tallyOutputs (poll : Poll) (coordinator : Coordinator)
    (new_commitment : HashBytes) : Option (VKey × List PubIn × Commitment) :=
  let proof_index := poll.state.commitment.tally.1
  let current_batch_index := proof_index * tallyBatchSize poll
  if poll.state.registrations.count + 1 ≤ current_batch_index then none
  else
    some (coordinator.vk_tally,
      [PubIn.bytes poll.state.commitment.process.2,
       PubIn.bytes poll.state.commitment.tally.2,
       PubIn.bytes new_commitment,
       PubIn.nat current_batch_index,
       PubIn.nat (poll.state.registrations.count + 1)],
      { poll.state.commitment with
          tally := (proof_index + 1, new_commitment) })

/-- `prepare_public_inputs`: selects the process arm when
`proof_index * message_batch_size <= current_batch_index`, the tally arm
otherwise. -/
def prepare_public_inputs (H : PoseidonOracle) (poll : Poll)
    (coordinator : Coordinator) (new_commitment : HashBytes) :
    Option (VKey × List PubIn × Commitment) :=
  if poll.state.commitment.process.1 * messageBatchSize poll ≤ currentBatchIndex poll then
    processOutputs H poll coordinator new_commitment
  else
    tallyOutputs poll coordinator new_commitment

/-- Modelled from the spec: finalizing an accumulator computes a canonical
root over `arity ^ depth` slots, deterministically from the accumulator's
contents; the root computation itself lives outside the embedded sources, so
it is abstracted as a function `R` of the pre-merge accumulator.  Counts,
arity and depth are unchanged; the root becomes present. -/
def mergeTree (R : MerkleAccumulator → HashBytes) (t : MerkleAccumulator) :
    MerkleAccumulator :=
  { t with root := some (R t) }

/-- `merge_registrations`: finalizes the registration accumulator, and seeds
the process side of the ledger with batch index 0 and the arity-3 Poseidon
hash of (registration root, `EMPTY_BALLOT_ROOTS[1]`, an all-zero value).
The constant `EMPTY_BALLOT_ROOTS[1]` lives outside the embedded sources and
is passed as `ebr1`. -/
def merge_registrations (R : MerkleAccumulator → HashBytes) (H : PoseidonOracle)
    (ebr1 : HashBytes) (poll : Poll) : Poll :=
  let regs := mergeTree R poll.state.registrations
  let root := R poll.state.registrations
  let commitment := H.hash3 root ebr1 zeroHash
  { poll with state :=
      { poll.state with
          registrations := regs,
          commitment := { poll.state.commitment with process := (0, commitment) } } }

/-- `merge_interactions`: finalizes the interaction accumulator and fixes
both expected batch counts, exactly as the source computes them. -/
def merge_interactions (R : MerkleAccumulator → HashBytes) (poll : Poll) : Poll :=
  let inters := mergeTree R poll.state.interactions
  let process_batch_size := inters.arity ^ poll.config.process_subtree_depth
  let process_extra_batch := if 0 < inters.count % process_batch_size then 1 else 0
  let expected_process := inters.count / process_batch_size + process_extra_batch
  let tally_batch_size :=
    poll.state.registrations.arity ^ poll.config.tally_subtree_depth
  let expected_tally := 1 + poll.state.registrations.count / tally_batch_size
  { poll with state :=
      { poll.state with
          interactions := inters,
          commitment := { poll.state.commitment with
                            expected_process := expected_process,
                            expected_tally := expected_tally } } }

/-- `registration_limit_reached`: `count >= max_registrations - 1`, with the
`u32` subtraction wrapping (release semantics) when `max_registrations = 0`. -/
def registration_limit_reached (poll : Poll) : Bool :=
  decide ((poll.config.max_registrations + (2 ^ 32 - 1)) % 2 ^ 32
            ≤ poll.state.registrations.count)

/-- `interaction_limit_reached`: `count >= max_interactions`. -/
def interaction_limit_reached (poll : Poll) : Bool :=
  decide (poll.config.max_interactions ≤ poll.state.interactions.count)

/-- `is_registration_period` at block height `now`. -/
def is_registration_period (poll : Poll) (now : Nat) : Bool :=
  decide (poll.created_at ≤ now ∧ now < poll.created_at + poll.config.signup_period)

/-- `is_voting_period` at block height `now`. -/
def is_voting_period (poll : Poll) (now : Nat) : Bool :=
  let voting_period_start := poll.created_at + poll.config.signup_period
  let voting_period_end := voting_period_start + poll.config.voting_period
  decide (voting_period_start ≤ now ∧ now < voting_period_end)

/-- `is_over` at block height `now`: strictly after the voting period end. -/
def is_over (poll : Poll) (now : Nat) : Bool :=
  decide (get_voting_period_end poll < now)

/-- `is_proven`: both proof batch indices match the expected counts. -/
def is_proven (poll : Poll) : Bool :=
  decide (poll.state.commitment.process.1 = poll.state.commitment.expected_process
            ∧ poll.state.commitment.tally.1 = poll.state.commitment.expected_tally)

/-- The big-endian bytes of a `u32` value, as produced by `to_be_bytes`. -/
def u32BeBytes (t : Nat) : List Nat :=
  [t / 2 ^ 24 % 256, t / 2 ^ 16 % 256, t / 2 ^ 8 % 256, t % 256]

/-- The tally-result leaf built in `verify_outcome`: a zeroed 32-byte buffer
whose last four bytes (positions 28..31) receive the big-endian bytes of the
tally value. -/
def tallyLeaf (t : Nat) : HashBytes :=
  fun i => if 28 ≤ i.val then (u32BeBytes t).getD (i.val - 28) 0 else 0

/-- Modelled from the spec's words for comparison: a leaf formed by
right-padding the big-endian tally value, i.e. the four value bytes first
(positions 0..3) and zero padding after them. -/
def rightPadTallyLeaf (t : Nat) : HashBytes :=
  fun i => if i.val < 4 then (u32BeBytes t).getD i.val 0 else 0

/-- One level of `compute_merkle_root_from_path`: the arity-5 row at the
current level, with the running node at slot `idx % 5` and the four siblings
drawn from the level's path entries (`j - 1` for slots past the node's).
Fails when fewer than the four accessed sibling entries exist (the source
would index out of bounds there). -/
def buildRow (idx : Nat) (current : HashBytes) (lvl : List HashBytes) :
    Option (Fin 5 → HashBytes) :=
  let position := idx % 5
  if h : 3 < lvl.length then
    some (fun j =>
      if hje : j.val = position then current
      else lvl.get ⟨if position < j.val then j.val - 1 else j.val,
                    by have hj := j.isLt; have hp := Nat.mod_lt idx (y := 5) (by omega)
                       split <;> omega⟩)
  else none

/-- `compute_merkle_root_from_path` with `VOTE_TREE_ARITY = 5`: consumes one
path level per depth step, hashing the arity-5 row and dividing the index by
5 for the next level. -/
def compute_merkle_root_from_path (H : PoseidonOracle) :
    Nat → Nat → HashBytes → List (List HashBytes) → Option HashBytes
  | 0, _, current, _ => some current
  | _ + 1, _, _, [] => none
  | depth + 1, idx, current, lvl :: rest =>
    match buildRow idx current lvl with
    | none => none
    | some row =>
      compute_merkle_root_from_path H depth (idx / 5) (H.hash5 row) rest

/-- Modelled from the spec (the `PollOutcome` record is defined outside the
embedded sources): the claimed result consumed by `verify_outcome`, with
exactly the fields the code reads. -/
structure PollOutcome where
  tally_results : List Nat
  tally_result_proofs : List (List (List HashBytes))
  tally_result_salt : HashBytes
  spent_votes_hash : HashBytes
  total_spent : HashBytes
  total_spent_salt : HashBytes
  new_results_commitment : HashBytes

/-- The per-option body of `verify_outcome`'s loop: fetch the option's tally
value and proof path, recompute the Merkle root from the padded leaf, chain
the hash with the result salt and the spent-votes hash, and compare against
the recorded tally commitment.  Returns the tally value when every step
succeeds and the hash matches. -/
def checkOption (H : PoseidonOracle) (poll : Poll) (outcome : PollOutcome)
    (option_index : Nat) : Option Nat :=
  match outcome.tally_results.get? option_index,
        outcome.tally_result_proofs.get? option_index with
  | some tally_result, some tally_path =>
    match compute_merkle_root_from_path H poll.config.vote_option_tree_depth
            option_index (tallyLeaf tally_result) tally_path with
    | none => none
    | some root =>
      let h1 := H.hash2 root outcome.tally_result_salt
      let h2 := H.hash2 h1 outcome.spent_votes_hash
      if h2 = poll.state.commitment.tally.2 then some tally_result else none
  | _, _ => none

/-- The `for option_index in 0..len` loop of `verify_outcome`, with `fuel`
options left to scan starting at index `i`, carrying the winner candidate
`(outcome_index, max_tally_result)`. -/
def verifyOptionsAux (H : PoseidonOracle) (poll : Poll) (outcome : PollOutcome) :
    Nat → Nat → Nat × Nat → Option (Nat × Nat)
  | 0, _, acc => some acc
  | fuel + 1, i, (widx, wmax) =>
    match checkOption H poll outcome i with
    | none => none
    | some t =>
      verifyOptionsAux H poll outcome fuel (i + 1)
        (if wmax < t then (i, t) else (widx, wmax))

/-- `verify_outcome`: requires `is_proven`, checks every vote option, then
the total-spent chain, and returns the tracked winner index. -/
def verify_outcome (H : PoseidonOracle) (poll : Poll)
    (outcome : Option PollOutcome) : Option Nat :=
  if is_proven poll = false then none
  else
    match outcome with
    | none => none
    | some outcome =>
      match verifyOptionsAux H poll outcome
              poll.config.vote_options.length 0 (0, 0) with
      | none => none
      | some (outcome_index, _) =>
        let h1 := H.hash2 outcome.total_spent outcome.total_spent_salt
        let h2 := H.hash2 outcome.new_results_commitment h1
        if h2 = poll.state.commitment.tally.2 then some outcome_index else none

/-- A stored poll record of the dispatch layer (`lib.rs`). -/
structure StoredPoll where
  index : Nat
  coordinator : Nat
  created_at : Nat
  signup_period : Nat
  voting_period : Nat

/-- `poll_is_ongoing` of `lib.rs`: with a present poll, true iff
`now <= created_at + voting_period + signup_period`; false for a missing
poll. -/
def poll_is_ongoing (now : Nat) (poll : Option StoredPoll) : Bool :=
  match poll with
  | some p => decide (now ≤ p.created_at + p.voting_period + p.signup_period)
  | none => false

/-- Errors of the dispatch layer that `create_poll` can raise. -/
inductive PalletError where
  | CoordinatorNotRegistered
  | CoordinatorMayNotCreatePolls
  | PollOngoing
deriving DecidableEq

/-- The pallet storage `create_poll` touches: registered coordinators, the
poll map with its count, and the per-coordinator poll-id lists. -/
structure ChainState where
  coordinators : List Nat
  pollCount : Nat
  polls : Nat → Option StoredPoll
  coordPollIds : Nat → List Nat

/-- `create_poll` of `lib.rs` at block height `now`: requires a registered
coordinator, enforces `MaxCoordinatorPolls` (skipped when zero), rejects with
`PollOngoing` while the coordinator's most recently created poll is still
ongoing, then inserts the new poll and appends its id. -/
def create_poll (maxCoordinatorPolls : Nat) (st : ChainState) (sender : Nat)
    (signup_period voting_period now : Nat) : Except PalletError ChainState :=
  if sender ∈ st.coordinators then
    let coord_poll_ids := st.coordPollIds sender
    if maxCoordinatorPolls = 0 ∨ coord_poll_ids.length < maxCoordinatorPolls then
      let created_at := now
      let ongoing :=
        match coord_poll_ids.getLast? with
        | some index => poll_is_ongoing created_at (st.polls index)
        | none => false
      if ongoing then Except.error PalletError.PollOngoing
      else
        let poll_index := st.pollCount + 1
        Except.ok
          { st with
              pollCount := st.pollCount + 1,
              polls := fun i =>
                if i = poll_index then
                  some { index := poll_index, coordinator := sender,
                         created_at := created_at,
                         signup_period := signup_period,
                         voting_period := voting_period }
                else st.polls i,
              coordPollIds := fun a =>
                if a = sender then st.coordPollIds a ++ [poll_index]
                else st.coordPollIds a }
    else Except.error PalletError.CoordinatorMayNotCreatePolls
  else Except.error PalletError.CoordinatorNotRegistered

instance : DecidableEq VKey := by
  unfold VKey
  infer_instance

instance (n : Nat) : OfNat VKey n := ⟨(OfNat.ofNat n : Nat)⟩

/-- A trivial concrete hash oracle used for concrete evaluations. -/
def trivOracle : PoseidonOracle where
  hash2 := fun _ _ => zeroHash
  hash3 := fun _ _ _ => zeroHash
  hash4 := fun _ _ _ _ => zeroHash
  hash5 := fun _ => zeroHash

/-- A concrete coordinator with distinguishable verify keys. -/
def coord0 : Coordinator where
  public_key_x := zeroHash
  public_key_y := zeroHash
  vk_process := 0
  vk_tally := 1

/-- A concrete open poll used for lifecycle and capacity checks:
`created_at = 100`, `signup_period = 50`, `voting_period = 200`. -/
def basePoll : Poll where
  created_at := 100
  config :=
    { signup_period := 50, voting_period := 200, vote_options := [0, 0],
      vote_option_tree_depth := 0, process_subtree_depth := 1,
      tally_subtree_depth := 1, max_registrations := 10, max_interactions := 100 }
  state :=
    { registrations := { arity := 5, depth := 2, count := 9, root := none },
      interactions := { arity := 5, depth := 2, count := 0, root := none },
      commitment := { process := (0, zeroHash), tally := (0, zeroHash),
                      expected_process := 0, expected_tally := 0 },
      outcome := none, tombstone := false }

/-- A concrete merged poll with 101 interactions and process batch size 20
(arity 20, subtree depth 1), as in the spec's worked example. -/
def poll101 : Poll where
  created_at := 100
  config :=
    { signup_period := 50, voting_period := 200, vote_options := [0, 0],
      vote_option_tree_depth := 0, process_subtree_depth := 1,
      tally_subtree_depth := 1, max_registrations := 200, max_interactions := 200 }
  state :=
    { registrations := { arity := 5, depth := 2, count := 5, root := some zeroHash },
      interactions := { arity := 20, depth := 2, count := 101, root := some zeroHash },
      commitment := { process := (0, zeroHash), tally := (0, zeroHash),
                      expected_process := 6, expected_tally := 0 },
      outcome := none, tombstone := false }

/-- A concrete merged poll with zero interactions, proof indices at their
expected values. -/
def pollZero : Poll where
  created_at := 100
  config :=
    { signup_period := 50, voting_period := 200, vote_options := [0, 0],
      vote_option_tree_depth := 0, process_subtree_depth := 1,
      tally_subtree_depth := 1, max_registrations := 200, max_interactions := 200 }
  state :=
    { registrations := { arity := 5, depth := 2, count := 0, root := some zeroHash },
      interactions := { arity := 5, depth := 2, count := 0, root := some zeroHash },
      commitment := { process := (0, zeroHash), tally := (0, zeroHash),
                      expected_process := 0, expected_tally := 1 },
      outcome := none, tombstone := false }

/-- A concrete merged poll whose process side is complete, so the tally arm
of `prepare_public_inputs` is selected. -/
def pollTally : Poll where
  created_at := 100
  config :=
    { signup_period := 50, voting_period := 200, vote_options := [0, 0],
      vote_option_tree_depth := 0, process_subtree_depth := 1,
      tally_subtree_depth := 1, max_registrations := 200, max_interactions := 200 }
  state :=
    { registrations := { arity := 5, depth := 2, count := 3, root := some zeroHash },
      interactions := { arity := 5, depth := 2, count := 5, root := some zeroHash },
      commitment := { process := (1, zeroHash), tally := (0, zeroHash),
                      expected_process := 1, expected_tally := 1 },
      outcome := none, tombstone := false }

/-- A concrete stored poll of the dispatch layer. -/
def stuckPoll : StoredPoll where
  index := 1
  coordinator := 7
  created_at := 100
  signup_period := 50
  voting_period := 200

/-- Pallet storage holding coordinator 7 with `stuckPoll` as their most
recent poll. -/
def chain0 : ChainState where
  coordinators := [7]
  pollCount := 1
  polls := fun i => if i = 1 then some stuckPoll else none
  coordPollIds := fun a => if a = 7 then [1] else []

/-- A concrete proven poll (both proof indices at their expected counts)
with two vote options, vote-option tree depth 0, and the zero tally
commitment (matched by `trivOracle`). -/
def outcomePoll : Poll where
  created_at := 100
  config :=
    { signup_period := 50, voting_period := 200, vote_options := [0, 0],
      vote_option_tree_depth := 0, process_subtree_depth := 1,
      tally_subtree_depth := 1, max_registrations := 200, max_interactions := 200 }
  state :=
    { registrations := { arity := 5, depth := 2, count := 3, root := some zeroHash },
      interactions := { arity := 5, depth := 2, count := 5, root := some zeroHash },
      commitment := { process := (1, zeroHash), tally := (1, zeroHash),
                      expected_process := 1, expected_tally := 1 },
      outcome := none, tombstone := false }

/-- A concrete claimed outcome with tallies 3 and 5 and empty proof paths
(depth-0 option tree). -/
def outcomeOK : PollOutcome where
  tally_results := [3, 5]
  tally_result_proofs := [[], []]
  tally_result_salt := zeroHash
  spent_votes_hash := zeroHash
  total_spent := zeroHash
  total_spent_salt := zeroHash
  new_results_commitment := zeroHash

theorem ceil_div_eq (a b : Nat) (hb : 0 < b) :
    a / b + (if 0 < a % b then 1 else 0) = (a + b - 1) / b := by
  have hqr := Nat.div_add_mod a b
  have hlt := Nat.mod_lt a hb
  rcases Nat.eq_zero_or_pos (a % b) with hr | hr
  · have h1 : a + b - 1 = (b - 1) + b * (a / b) := by omega
    have h2 : (a + b - 1) / b = (b - 1) / b + a / b := by
      rw [h1]
      exact Nat.add_mul_div_left _ _ hb
    have h3 : (b - 1) / b = 0 := Nat.div_eq_of_lt (by omega)
    simp only [hr, lt_self_iff_false, if_false]
    omega
  · have hm : b * (a / b + 1) = b * (a / b) + b := by ring
    have h1 : a + b - 1 = (a % b - 1) + b * (a / b + 1) := by omega
    have h2 : (a + b - 1) / b = (a % b - 1) / b + (a / b + 1) := by
      rw [h1]
      exact Nat.add_mul_div_left _ _ hb
    have h3 : (a % b - 1) / b = 0 := Nat.div_eq_of_lt (by omega)
    simp only [hr, if_true]
    omega

/-- C7 (amended): for positive signup and voting periods, the predicates
`is_registration_period`, `is_voting_period` and `is_over` partition the
block-height timeline from `created_at` onward with no overlaps, and with
exactly one gap: at the single boundary height
`created_at + signup_period + voting_period` none of the three holds; at
every other height at or after `created_at` exactly one of the three holds. -/
theorem lifecycle_partition (poll : Poll) (now : Nat)
    (hs : 0 < poll.config.signup_period) (hv : 0 < poll.config.voting_period)
    (hc : poll.created_at ≤ now)
    (hne : now ≠ poll.created_at + poll.config.signup_period + poll.config.voting_period) :
    (is_registration_period poll now = true ∧ is_voting_period poll now = false
       ∧ is_over poll now = false)
  ∨ (is_registration_period poll now = false ∧ is_voting_period poll now = true
       ∧ is_over poll now = false)
  ∨ (is_registration_period poll now = false ∧ is_voting_period poll now = false
       ∧ is_over poll now = true) := by
  simp only [is_registration_period, is_voting_period, is_over, get_voting_period_end,
    decide_eq_true_eq, decide_eq_false_iff_not, not_and, not_lt, not_le]
  omega

/-- C7 counterexample: at the boundary height `created_at + signup_period +
voting_period` (here 100 + 50 + 200 = 350) none of the three lifecycle
predicates holds, so the three do not partition the timeline with no gaps. -/
theorem lifecycle_gap_cex :
    0 < basePoll.config.signup_period ∧ 0 < basePoll.config.voting_period
  ∧ basePoll.created_at ≤ 350
  ∧ is_registration_period basePoll 350 = false
  ∧ is_voting_period basePoll 350 = false
  ∧ is_over basePoll 350 = false := by decide

theorem lifecycle_partition_witness :
    (is_registration_period basePoll 140 = true ∧ is_voting_period basePoll 140 = false
       ∧ is_over basePoll 140 = false)
  ∨ (is_registration_period basePoll 140 = false ∧ is_voting_period basePoll 140 = true
       ∧ is_over basePoll 140 = false)
  ∨ (is_registration_period basePoll 140 = false ∧ is_voting_period basePoll 140 = false
       ∧ is_over basePoll 140 = true) :=
  lifecycle_partition basePoll 140 (by decide) (by decide) (by decide) (by decide)

/-- C8 (amended): the ongoing-poll predicate has no lower bound: with a
present poll it is true exactly when the current height is at most
`created_at + signup_period + voting_period` (also at heights before
`created_at`), and false for a missing poll; and `create_poll` fails with
the `PollOngoing` error whenever the coordinator is registered, under the
poll cap, and their most recently created poll is still ongoing at the
creation height. -/
theorem poll_is_ongoing_spec :
    (∀ (now : Nat) (p : StoredPoll),
       poll_is_ongoing now (some p) = true
         ↔ now ≤ p.created_at + p.signup_period + p.voting_period)
  ∧ (∀ now : Nat, poll_is_ongoing now none = false)
  ∧ (∀ (mcp : Nat) (st : ChainState) (sender s v now idx : Nat),
       sender ∈ st.coordinators →
       (mcp = 0 ∨ (st.coordPollIds sender).length < mcp) →
       (st.coordPollIds sender).getLast? = some idx →
       poll_is_ongoing now (st.polls idx) = true →
       create_poll mcp st sender s v now = Except.error PalletError.PollOngoing) := by
  refine ⟨?_, ?_, ?_⟩
  · intro now p
    simp only [poll_is_ongoing, decide_eq_true_eq]
    omega
  · intro now
    rfl
  · intro mcp st sender s v now idx hmem hmax hlast hon
    simp only [create_poll, if_pos hmem, if_pos hmax, hlast, hon, if_pos]

/-- C8 counterexample: `poll_is_ongoing` is true at height 0 for a poll
created at height 100, although 0 is not within
`[created_at, created_at + signup_period + voting_period]`, so the predicate
is not the claimed interval membership. -/
theorem poll_is_ongoing_cex :
    poll_is_ongoing 0 (some stuckPoll) = true ∧ ¬ (stuckPoll.created_at ≤ 0) := by
  decide

theorem poll_is_ongoing_witness :
    create_poll 0 chain0 7 50 200 0 = Except.error PalletError.PollOngoing :=
  poll_is_ongoing_spec.2.2 0 chain0 7 50 200 0 1 (by decide) (Or.inl rfl)
    (by decide) (by decide)

/-- C9: `merge_registrations` seeds the process side of the ledger for any
prior contents: the process proof batch index becomes 0 and the process
commitment becomes the arity-3 Poseidon hash of (registration accumulator
root, the `EMPTY_BALLOT_ROOTS[1]` constant, the all-zero 32-byte value);
the registration root is the finalized canonical root. -/
theorem merge_registrations_seeds_process (R : MerkleAccumulator → HashBytes)
    (H : PoseidonOracle) (ebr1 : HashBytes) (poll : Poll) :
    (merge_registrations R H ebr1 poll).state.commitment.process
      = (0, H.hash3 (R poll.state.registrations) ebr1 zeroHash)
  ∧ (merge_registrations R H ebr1 poll).state.registrations.root
      = some (R poll.state.registrations) :=
  ⟨rfl, rfl⟩

/-- C10: the two capacity predicates are asymmetric: for a positive,
non-wrapping `max_registrations`, `registration_limit_reached` is true
exactly when the registration count is at least `max_registrations - 1`,
while `interaction_limit_reached` is true exactly when the interaction count
is at least `max_interactions`. -/
theorem capacity_predicates (poll : Poll)
    (h1 : 0 < poll.config.max_registrations)
    (h2 : poll.config.max_registrations < 2 ^ 32) :
    (registration_limit_reached poll = true
       ↔ poll.config.max_registrations - 1 ≤ poll.state.registrations.count)
  ∧ (interaction_limit_reached poll = true
       ↔ poll.config.max_interactions ≤ poll.state.interactions.count) := by
  constructor
  · simp only [registration_limit_reached, decide_eq_true_eq]
    omega
  · simp only [interaction_limit_reached, decide_eq_true_eq]

/-- C2 (amended): `merge_interactions` fixes both expected batch counts:
`expected_process = ceil(interaction_count / process_batch_size)` with
`process_batch_size = arity ^ process_subtree_depth` (so 101 interactions
with batch size 20 yield 6), and
`expected_tally = 1 + floor(registration_count / tally_batch_size)` with
`tally_batch_size = arity ^ tally_subtree_depth`.  (`merge_registrations`
computes neither count; it seeds the process commitment instead.) -/
theorem merge_interactions_expected (R : MerkleAccumulator → HashBytes) (poll : Poll)
    (ha : 0 < poll.state.interactions.arity) :
    (merge_interactions R poll).state.commitment.expected_process
      = (poll.state.interactions.count + messageBatchSize poll - 1) / messageBatchSize poll
  ∧ (merge_interactions R poll).state.commitment.expected_tally
      = 1 + poll.state.registrations.count / tallyBatchSize poll := by
  have hmbs : 0 < messageBatchSize poll := pow_pos ha _
  constructor
  · have h := ceil_div_eq poll.state.interactions.count (messageBatchSize poll) hmbs
    exact h
  · rfl

/-- C2 counterexample: `merge_registrations` does not compute the expected
tally batch count: on a poll with 5 registrations and tally batch size 5 the
claimed value is `1 + 5 / 5 = 2`, but after `merge_registrations` the
ledger's `expected_tally` still holds its prior value 0. -/
theorem merge_registrations_no_expected_tally_cex :
    (merge_registrations (fun _ => zeroHash) trivOracle zeroHash poll101).state.commitment.expected_tally
      ≠ 1 + poll101.state.registrations.count / tallyBatchSize poll101 := by
  decide

theorem merge_interactions_expected_witness :
    (merge_interactions (fun _ => zeroHash) poll101).state.commitment.expected_process = 6 :=
  (merge_interactions_expected (fun _ => zeroHash) poll101 (by decide)).1.trans (by decide)

theorem batch_index_iff (mbs q r pi : Nat) (hm : 0 < mbs)
    (hpos : 0 < mbs * q + r) (hr : r < mbs) :
    pi * mbs ≤ (if r = 0 then mbs * q + r - mbs else mbs * q + r - r)
      ↔ pi < q + (if 0 < r then 1 else 0) := by
  have hcomm : pi * mbs = mbs * pi := Nat.mul_comm _ _
  rcases Nat.eq_zero_or_pos r with hr0 | hr0
  · subst hr0
    cases q with
    | zero => omega
    | succ k =>
      have hk : mbs * (k + 1) = mbs * k + mbs := by ring
      simp only [eq_self_iff_true, if_true, lt_self_iff_false, if_false]
      constructor
      · intro h
        have h2 : mbs * pi ≤ mbs * k := by omega
        have := Nat.le_of_mul_le_mul_left h2 hm
        omega
      · intro h
        have h2 : mbs * pi ≤ mbs * k := Nat.mul_le_mul_left mbs (by omega)
        omega
  · simp only [if_neg (show ¬ r = 0 by omega), if_pos hr0]
    constructor
    · intro h
      have h2 : mbs * pi ≤ mbs * q := by omega
      have := Nat.le_of_mul_le_mul_left h2 hm
      omega
    · intro h
      have h2 : mbs * pi ≤ mbs * q := Nat.mul_le_mul_left mbs (by omega)
      omega

/-- C1 (amended): for every merged poll with at least one interaction whose
expected process count was fixed by `merge_interactions`,
`prepare_public_inputs` selects the circuit by comparing the process proof
index times the process batch size against the last completed interaction
batch boundary, and that comparison holds exactly when unprocessed
interaction batches remain; consequently the tally arm is never taken while
unprocessed interaction batches remain, and the process arm is never taken
once all interaction batches are processed. -/
theorem prepare_public_inputs_branch (H : PoseidonOracle) (poll : Poll)
    (coordinator : Coordinator) (nc : HashBytes)
    (hc : 0 < poll.state.interactions.count)
    (ha : 0 < poll.state.interactions.arity)
    (hexp : poll.state.commitment.expected_process
      = poll.state.interactions.count / messageBatchSize poll
        + (if 0 < poll.state.interactions.count % messageBatchSize poll then 1 else 0)) :
    (poll.state.commitment.process.1 * messageBatchSize poll ≤ currentBatchIndex poll
       ↔ poll.state.commitment.process.1 < poll.state.commitment.expected_process)
  ∧ (poll.state.commitment.process.1 < poll.state.commitment.expected_process →
       prepare_public_inputs H poll coordinator nc = processOutputs H poll coordinator nc)
  ∧ (poll.state.commitment.expected_process ≤ poll.state.commitment.process.1 →
       prepare_public_inputs H poll coordinator nc = tallyOutputs poll coordinator nc) := by
  have hm : 0 < messageBatchSize poll := pow_pos ha _
  have hqr := Nat.div_add_mod poll.state.interactions.count (messageBatchSize poll)
  have hmod : poll.state.interactions.count % messageBatchSize poll < messageBatchSize poll :=
    Nat.mod_lt _ hm
  have hcbi : currentBatchIndex poll
      = if poll.state.interactions.count % messageBatchSize poll = 0
        then poll.state.interactions.count - messageBatchSize poll
        else poll.state.interactions.count
              - poll.state.interactions.count % messageBatchSize poll := by
    simp only [currentBatchIndex]
    rw [if_pos hc]
  have hiff0 := batch_index_iff (messageBatchSize poll)
      (poll.state.interactions.count / messageBatchSize poll)
      (poll.state.interactions.count % messageBatchSize poll)
      poll.state.commitment.process.1 hm (by rw [hqr]; exact hc) hmod
  rw [hqr, ← hcbi, ← hexp] at hiff0
  refine ⟨hiff0, ?_, ?_⟩
  · intro h
    rw [prepare_public_inputs, if_pos (hiff0.mpr h)]
  · intro h
    rw [prepare_public_inputs,
      if_neg (fun hcond => absurd (hiff0.mp hcond) (by omega))]

/-- C1 counterexample: a merged poll with zero interactions.  The expected
process batch count is 0 and the process proof index equals it (all zero
interaction batches are processed), yet `prepare_public_inputs` still takes
the process arm: it returns the process verify key and a ledger whose
process proof index is bumped to 1. -/
theorem prepare_public_inputs_zero_cex :
    pollZero.state.commitment.process.1 = pollZero.state.commitment.expected_process
  ∧ pollZero.state.commitment.expected_process
      = pollZero.state.interactions.count / messageBatchSize pollZero
        + (if 0 < pollZero.state.interactions.count % messageBatchSize pollZero then 1 else 0)
  ∧ pollZero.state.interactions.root.isSome = true
  ∧ pollZero.state.registrations.root.isSome = true
  ∧ (prepare_public_inputs trivOracle pollZero coord0 zeroHash).map (fun r => r.1)
      = some coord0.vk_process
  ∧ (prepare_public_inputs trivOracle pollZero coord0 zeroHash).map
        (fun r => r.2.2.process.1)
      = some (pollZero.state.commitment.process.1 + 1) := by
  decide

theorem prepare_public_inputs_branch_witness :
    prepare_public_inputs trivOracle poll101 coord0 zeroHash
      = processOutputs trivOracle poll101 coord0 zeroHash :=
  (prepare_public_inputs_branch trivOracle poll101 coord0 zeroHash (by decide) (by decide)
    (by decide)).2.1 (by decide)

/-- C3: when `prepare_public_inputs` takes the tally arm, it returns no
result exactly when the batch start index (tally proof index times tally
batch size) already covers the full registration set, i.e. reaches past the
registration count (the set proven has `count + 1` entries); otherwise it
returns the tally verify key, the five tally public inputs, and the ledger
with the tally proof index incremented and the new commitment recorded. -/
theorem prepare_tally_arm (H : PoseidonOracle) (poll : Poll)
    (coordinator : Coordinator) (nc : HashBytes)
    (hb : currentBatchIndex poll
            < poll.state.commitment.process.1 * messageBatchSize poll) :
    (prepare_public_inputs H poll coordinator nc = none
       ↔ poll.state.registrations.count + 1
           ≤ poll.state.commitment.tally.1 * tallyBatchSize poll)
  ∧ (poll.state.commitment.tally.1 * tallyBatchSize poll
       < poll.state.registrations.count + 1 →
       prepare_public_inputs H poll coordinator nc
         = some (coordinator.vk_tally,
             [PubIn.bytes poll.state.commitment.process.2,
              PubIn.bytes poll.state.commitment.tally.2,
              PubIn.bytes nc,
              PubIn.nat (poll.state.commitment.tally.1 * tallyBatchSize poll),
              PubIn.nat (poll.state.registrations.count + 1)],
             { poll.state.commitment with
                 tally := (poll.state.commitment.tally.1 + 1, nc) })) := by
  have hcond : ¬ (poll.state.commitment.process.1 * messageBatchSize poll
      ≤ currentBatchIndex poll) := by omega
  rw [prepare_public_inputs, if_neg hcond]
  simp only [tallyOutputs]
  constructor
  · constructor
    · intro h
      by_contra hno
      rw [if_neg (by omega)] at h
      exact Option.noConfusion h
    · intro h
      rw [if_pos h]
  · intro h
    rw [if_neg (by omega)]

theorem prepare_tally_arm_witness :
    prepare_public_inputs trivOracle pollTally coord0 zeroHash
      = some (coord0.vk_tally,
          [PubIn.bytes pollTally.state.commitment.process.2,
           PubIn.bytes pollTally.state.commitment.tally.2,
           PubIn.bytes zeroHash,
           PubIn.nat (pollTally.state.commitment.tally.1 * tallyBatchSize pollTally),
           PubIn.nat (pollTally.state.registrations.count + 1)],
          { pollTally.state.commitment with
              tally := (pollTally.state.commitment.tally.1 + 1, zeroHash) }) :=
  (prepare_tally_arm trivOracle pollTally coord0 zeroHash (by decide)).2 (by decide)

/-- C5 (amended): the tally-result leaf left-zero-pads the big-endian tally
value (the value sits right-aligned in the 32-byte leaf, so the leaf's
big-endian value equals the tally value), and the Merkle root is recomputed
over a path of the configured depth at fixed arity 5: a depth-0 walk returns
the leaf; at each level the sibling set has 4 entries (fewer fails), the
leaf's slot is the current index modulo 5 with siblings shifted past it, and
the index is integer-divided by 5 for the next level. -/
theorem tally_leaf_and_path :
    (∀ t : Nat, t < 2 ^ 32 → ∀ i : Fin 32,
       tallyLeaf t i = t / 256 ^ (31 - i.val) % 256)
  ∧ (∀ (H : PoseidonOracle) (idx : Nat) (cur : HashBytes)
       (path : List (List HashBytes)),
       compute_merkle_root_from_path H 0 idx cur path = some cur)
  ∧ (∀ (H : PoseidonOracle) (d idx : Nat) (cur : HashBytes)
       (lvl : List HashBytes) (rest : List (List HashBytes)), 3 < lvl.length →
       compute_merkle_root_from_path H (d + 1) idx cur (lvl :: rest)
         = compute_merkle_root_from_path H d (idx / 5)
             (H.hash5 (fun j => if j.val = idx % 5 then cur
                else lvl.getD (if idx % 5 < j.val then j.val - 1 else j.val)
                       zeroHash)) rest)
  ∧ (∀ (H : PoseidonOracle) (d idx : Nat) (cur : HashBytes)
       (lvl : List HashBytes) (rest : List (List HashBytes)), lvl.length ≤ 3 →
       compute_merkle_root_from_path H (d + 1) idx cur (lvl :: rest) = none) := by
  refine ⟨?_, ?_, ?_, ?_⟩
  · intro t ht i
    rcases i with ⟨iv, hlt⟩
    by_cases h28 : 28 ≤ iv
    · have hiv : iv = 28 ∨ iv = 29 ∨ iv = 30 ∨ iv = 31 := by omega
      rcases hiv with rfl | rfl | rfl | rfl <;>
        (simp [tallyLeaf, u32BeBytes]; try norm_num)
    · have hzero : tallyLeaf t ⟨iv, hlt⟩ = 0 := by
        simp [tallyLeaf, h28]
      have hlt2 : t < 256 ^ (31 - iv) := by
        calc t < 2 ^ 32 := ht
          _ = 256 ^ 4 := by norm_num
          _ ≤ 256 ^ (31 - iv) := Nat.pow_le_pow_right (by norm_num) (by omega)
      rw [hzero, Nat.div_eq_of_lt hlt2]
  · intro H idx cur path
    rfl
  · intro H d idx cur lvl rest h
    have hrow : buildRow idx cur lvl
        = some (fun j => if j.val = idx % 5 then cur
            else lvl.getD (if idx % 5 < j.val then j.val - 1 else j.val) zeroHash) := by
      unfold buildRow
      rw [dif_pos h]
      congr 1
      funext j
      split
      · rfl
      · exact (List.getD_eq_get _ _ _).symm
    simp only [compute_merkle_root_from_path, hrow]
  · intro H d idx cur lvl rest h
    have hrow : buildRow idx cur lvl = none := by
      unfold buildRow
      rw [dif_neg (by omega)]
    simp only [compute_merkle_root_from_path, hrow]

/-- C5 counterexample: the leaf is not formed by right-padding (value bytes
first, zeros after): at tally value 1 the code's leaf and the right-padded
leaf differ. -/
theorem tally_leaf_rightpad_cex : tallyLeaf 1 ≠ rightPadTallyLeaf 1 := by
  decide

theorem tally_leaf_and_path_witness :
    tallyLeaf 5 (31 : Fin 32) = 5 / 256 ^ (31 - (31 : Fin 32).val) % 256 :=
  tally_leaf_and_path.1 5 (by norm_num) 31

theorem capacity_predicates_witness :
    0 < basePoll.config.max_registrations
  ∧ ((registration_limit_reached basePoll = true
        ↔ basePoll.config.max_registrations - 1 ≤ basePoll.state.registrations.count)
     ∧ (interaction_limit_reached basePoll = true
          ↔ basePoll.config.max_interactions ≤ basePoll.state.interactions.count)) :=
  ⟨by decide, capacity_predicates basePoll (by decide) (by decide)⟩

theorem checkOption_some_elim (H : PoseidonOracle) (poll : Poll) (oc : PollOutcome)
    (i t : Nat) (h : checkOption H poll oc i = some t) :
    oc.tally_results.get? i = some t
    ∧ ∃ path root, oc.tally_result_proofs.get? i = some path
        ∧ compute_merkle_root_from_path H poll.config.vote_option_tree_depth i
            (tallyLeaf t) path = some root
        ∧ H.hash2 (H.hash2 root oc.tally_result_salt) oc.spent_votes_hash
            = poll.state.commitment.tally.2 := by
  unfold checkOption at h
  cases hr : oc.tally_results.get? i with
  | none =>
    simp only [hr] at h
    exact Option.noConfusion h
  | some t0 =>
    cases hp : oc.tally_result_proofs.get? i with
    | none =>
      simp only [hr, hp] at h
      exact Option.noConfusion h
    | some path0 =>
      simp only [hr, hp] at h
      cases hm : compute_merkle_root_from_path H poll.config.vote_option_tree_depth i
          (tallyLeaf t0) path0 with
      | none =>
        simp only [hm] at h
        exact Option.noConfusion h
      | some root0 =>
        simp only [hm] at h
        by_cases hh : H.hash2 (H.hash2 root0 oc.tally_result_salt) oc.spent_votes_hash
            = poll.state.commitment.tally.2
        · rw [if_pos hh] at h
          injection h with h'
          subst h'
          exact ⟨rfl, path0, root0, rfl, hm, hh⟩
        · rw [if_neg hh] at h
          exact Option.noConfusion h

theorem verifyOptionsAux_mem_some (H : PoseidonOracle) (poll : Poll) (oc : PollOutcome) :
    ∀ fuel i acc res, verifyOptionsAux H poll oc fuel i acc = some res →
      ∀ j, i ≤ j → j < i + fuel → ∃ t, checkOption H poll oc j = some t := by
  intro fuel
  induction fuel with
  | zero =>
    intro i acc res _ j h1 h2
    omega
  | succ n ih =>
    intro i acc res h j h1 h2
    obtain ⟨w, m⟩ := acc
    simp only [verifyOptionsAux] at h
    cases hco : checkOption H poll oc i with
    | none =>
      simp only [hco] at h
      exact Option.noConfusion h
    | some t =>
      simp only [hco] at h
      rcases Nat.eq_or_lt_of_le h1 with rfl | hlt
      · exact ⟨t, hco⟩
      · exact ih (i + 1) _ res h j hlt (by omega)

theorem verifyOptionsAux_none_of_check_none (H : PoseidonOracle) (poll : Poll)
    (oc : PollOutcome) :
    ∀ fuel i acc j, i ≤ j → j < i + fuel → checkOption H poll oc j = none →
      verifyOptionsAux H poll oc fuel i acc = none := by
  intro fuel
  induction fuel with
  | zero =>
    intro i acc j h1 h2
    omega
  | succ n ih =>
    intro i acc j h1 h2 hnone
    obtain ⟨w, m⟩ := acc
    simp only [verifyOptionsAux]
    rcases Nat.eq_or_lt_of_le h1 with rfl | hlt
    · simp only [hnone]
    · cases hco : checkOption H poll oc i with
      | none => rfl
      | some t =>
        simp only []
        exact ih (i + 1) _ j hlt (by omega) hnone

theorem verifyOptionsAux_winner (H : PoseidonOracle) (poll : Poll) (oc : PollOutcome) :
    ∀ fuel i w m res, verifyOptionsAux H poll oc fuel i (w, m) = some res →
      (∀ j, i ≤ j → j < i + fuel →
         ∀ t, checkOption H poll oc j = some t → t ≤ res.2)
      ∧ m ≤ res.2
      ∧ ((res.1 = w ∧ res.2 = m)
         ∨ (i ≤ res.1 ∧ res.1 < i + fuel
            ∧ checkOption H poll oc res.1 = some res.2 ∧ m < res.2
            ∧ ∀ j, i ≤ j → j < res.1 →
                ∀ t, checkOption H poll oc j = some t → t < res.2)) := by
  intro fuel
  induction fuel with
  | zero =>
    intro i w m res h
    simp only [verifyOptionsAux] at h
    injection h with h'
    subst h'
    exact ⟨by intro j h1 h2; omega, Nat.le_refl m, Or.inl ⟨rfl, rfl⟩⟩
  | succ n ih =>
    intro i w m res h
    simp only [verifyOptionsAux] at h
    cases hco : checkOption H poll oc i with
    | none =>
      simp only [hco] at h
      exact Option.noConfusion h
    | some t =>
      simp only [hco] at h
      by_cases hmt : m < t
      · rw [if_pos hmt] at h
        obtain ⟨ha, hb, hc⟩ := ih (i + 1) i t res h
        refine ⟨?_, by omega, ?_⟩
        · intro j h1 h2 t' hct'
          rcases Nat.eq_or_lt_of_le h1 with rfl | hlt
          · rw [hco] at hct'
            injection hct' with h''
            omega
          · exact ha j hlt (by omega) t' hct'
        · rcases hc with ⟨h1, h2⟩ | ⟨h1, h2, h3, h4, h5⟩
          · right
            refine ⟨by omega, by omega, ?_, by omega, ?_⟩
            · rw [h1, h2]
              exact hco
            · intro j hj1 hj2 t' hct'
              omega
          · right
            refine ⟨by omega, by omega, h3, by omega, ?_⟩
            intro j hj1 hj2 t' hct'
            rcases Nat.eq_or_lt_of_le hj1 with rfl | hlt
            · rw [hco] at hct'
              injection hct' with h''
              omega
            · exact h5 j hlt hj2 t' hct'
      · rw [if_neg hmt] at h
        obtain ⟨ha, hb, hc⟩ := ih (i + 1) w m res h
        refine ⟨?_, hb, ?_⟩
        · intro j h1 h2 t' hct'
          rcases Nat.eq_or_lt_of_le h1 with rfl | hlt
          · rw [hco] at hct'
            injection hct' with h''
            omega
          · exact ha j hlt (by omega) t' hct'
        · rcases hc with ⟨h1, h2⟩ | ⟨h1, h2, h3, h4, h5⟩
          · exact Or.inl ⟨h1, h2⟩
          · right
            refine ⟨by omega, by omega, h3, h4, ?_⟩
            intro j hj1 hj2 t' hct'
            rcases Nat.eq_or_lt_of_le hj1 with rfl | hlt
            · rw [hco] at hct'
              injection hct' with h''
              omega
            · exact h5 j hlt hj2 t' hct'

theorem verify_outcome_some_elim (H : PoseidonOracle) (poll : Poll) (oc : PollOutcome)
    (idx : Nat) (h : verify_outcome H poll (some oc) = some idx) :
    is_proven poll = true
    ∧ ∃ wmax, verifyOptionsAux H poll oc poll.config.vote_options.length 0 (0, 0)
          = some (idx, wmax)
        ∧ H.hash2 oc.new_results_commitment (H.hash2 oc.total_spent oc.total_spent_salt)
            = poll.state.commitment.tally.2 := by
  simp only [verify_outcome] at h
  by_cases hp : is_proven poll = false
  · rw [if_pos hp] at h
    cases h
  · rw [if_neg hp] at h
    refine ⟨by simpa using hp, ?_⟩
    cases hl : verifyOptionsAux H poll oc poll.config.vote_options.length 0 (0, 0) with
    | none =>
      simp only [hl] at h
      exact Option.noConfusion h
    | some res =>
      obtain ⟨widx, wmax⟩ := res
      simp only [hl] at h
      by_cases hh : H.hash2 oc.new_results_commitment
          (H.hash2 oc.total_spent oc.total_spent_salt) = poll.state.commitment.tally.2
      · rw [if_pos hh] at h
        injection h with h'
        subst h'
        exact ⟨wmax, rfl, hh⟩
      · rw [if_neg hh] at h
        cases h

/-- C4: `verify_outcome` admits no partial success: it yields no result when
the poll is not proven (for any outcome, present or missing); it yields no
result whenever any single option's check fails (missing tally value,
missing or malformed proof path, or a chained hash that mismatches the
stored tally commitment); and when it does return a winning index, the poll
is proven, every option's recomputed chained hash equals the stored tally
commitment, and the final chain over the total-spent pair and the new
results commitment also equals the stored tally commitment. -/
theorem verify_outcome_all_or_nothing (H : PoseidonOracle) (poll : Poll) :
    (is_proven poll = false → ∀ oc, verify_outcome H poll oc = none)
  ∧ (∀ oc i, i < poll.config.vote_options.length →
       checkOption H poll oc i = none → verify_outcome H poll (some oc) = none)
  ∧ (∀ oc idx, verify_outcome H poll (some oc) = some idx →
       is_proven poll = true
       ∧ (∀ i, i < poll.config.vote_options.length →
            ∃ t path root,
              oc.tally_results.get? i = some t
              ∧ oc.tally_result_proofs.get? i = some path
              ∧ compute_merkle_root_from_path H poll.config.vote_option_tree_depth i
                  (tallyLeaf t) path = some root
              ∧ H.hash2 (H.hash2 root oc.tally_result_salt) oc.spent_votes_hash
                  = poll.state.commitment.tally.2)
       ∧ H.hash2 oc.new_results_commitment (H.hash2 oc.total_spent oc.total_spent_salt)
           = poll.state.commitment.tally.2) := by
  refine ⟨?_, ?_, ?_⟩
  · intro hnp oc
    simp only [verify_outcome, if_pos hnp]
  · intro oc i hi hnone
    simp only [verify_outcome]
    by_cases hp : is_proven poll = false
    · rw [if_pos hp]
    · rw [if_neg hp]
      have hl := verifyOptionsAux_none_of_check_none H poll oc
        poll.config.vote_options.length 0 (0, 0) i (by omega) (by omega) hnone
      simp only [hl]
  · intro oc idx h
    obtain ⟨hp, wmax, hl, hh⟩ := verify_outcome_some_elim H poll oc idx h
    refine ⟨hp, ?_, hh⟩
    intro i hi
    obtain ⟨t, ht⟩ := verifyOptionsAux_mem_some H poll oc
      poll.config.vote_options.length 0 (0, 0) (idx, wmax) hl i (by omega) (by omega)
    obtain ⟨h1, path, root, h2, h3, h4⟩ := checkOption_some_elim H poll oc i t ht
    exact ⟨t, path, root, h1, h2, h3, h4⟩

theorem verify_outcome_all_or_nothing_witness :
    is_proven pollTally = false
  ∧ verify_outcome trivOracle pollTally (some outcomeOK) = none :=
  ⟨by decide, (verify_outcome_all_or_nothing trivOracle pollTally).1 (by decide) (some outcomeOK)⟩

/-- C6: when `verify_outcome` returns a winning option index, that option's
tally value is maximal over all options, and any option with an equal tally
value has an index at least the winner's (ties keep the earliest index):
every other option's tally is at most the winner's, and options before the
winner are strictly smaller. -/
theorem verify_outcome_winner (H : PoseidonOracle) (poll : Poll) (oc : PollOutcome)
    (idx j tj ti : Nat)
    (h : verify_outcome H poll (some oc) = some idx)
    (hj : j < poll.config.vote_options.length)
    (htj : oc.tally_results.get? j = some tj)
    (hti : oc.tally_results.get? idx = some ti) :
    tj ≤ ti ∧ (j < idx → tj < ti) := by
  obtain ⟨_, wmax, hl, _⟩ := verify_outcome_some_elim H poll oc idx h
  obtain ⟨ha, hb, hc⟩ := verifyOptionsAux_winner H poll oc
    poll.config.vote_options.length 0 0 0 (idx, wmax) hl
  have hcj : checkOption H poll oc j = some tj := by
    obtain ⟨t', ht'⟩ := verifyOptionsAux_mem_some H poll oc
      poll.config.vote_options.length 0 (0, 0) (idx, wmax) hl j (by omega) (by omega)
    have := (checkOption_some_elim H poll oc j t' ht').1
    rw [htj] at this
    injection this with h''
    rw [ht', h'']
  have htjw : tj ≤ wmax := ha j (by omega) (by omega) tj hcj
  rcases hc with ⟨h1, h2⟩ | ⟨_, _, h3, _, h5⟩
  · have hlen : 0 < poll.config.vote_options.length := by omega
    obtain ⟨t0, ht0⟩ := verifyOptionsAux_mem_some H poll oc
      poll.config.vote_options.length 0 (0, 0) (idx, wmax) hl 0 (by omega) (by omega)
    have h0 := (checkOption_some_elim H poll oc 0 t0 ht0).1
    have ht0w : t0 ≤ wmax := ha 0 (by omega) (by omega) t0 ht0
    have hidx0 : idx = 0 := h1
    rw [hidx0] at hti
    rw [hti] at h0
    injection h0 with h''
    constructor
    · omega
    · intro hji
      omega
  · have h3' := (checkOption_some_elim H poll oc idx wmax h3).1
    rw [hti] at h3'
    injection h3' with h''
    constructor
    · omega
    · intro hji
      have := h5 j (by omega) hji tj hcj
      omega

theorem verify_outcome_winner_witness :
    verify_outcome trivOracle outcomePoll (some outcomeOK) = some 1
  ∧ (3 ≤ 5 ∧ (0 < 1 → 3 < 5)) :=
  ⟨by decide,
   verify_outcome_winner trivOracle outcomePoll outcomeOK 1 0 3 5 (by decide) (by decide)
     (by decide) (by decide)⟩

end Infimum
